import Mathlib

/-!
# Verification of the halo2-fibonacci sample circuits

A shallow embedding, in Lean 4, of the sample circuits of the
`halo2-fibonacci` repository and of the satisfaction checker ("mock
prover") they are run against:

* `src/example1.rs` — the two/three-column Fibonacci circuit;
* `src/fibonacci/example2.rs` — the single-column Fibonacci circuit;
* `src/range_check/example1.rs` — the direct polynomial range check;
* `src/range_check/example2.rs` — the lookup-based range check.

Pure value flow (row values, selector enabling, branch selection, error
propagation) is translated directly from the Rust source.  The
satisfaction checker itself lives in the external `halo2_proofs` crate
(and `src/range_check/table.rs` is absent); those parts are modelled
from the specification and carry a `Modelled from the spec:` note in
their doc comment.
-/

namespace Halo2Fib

/-- The modulus of the Pallas base field: the circuits instantiate the
generic field parameter at `pasta::Fp`. -/
def pallasP : Nat :=
  28948022309329048855892746252171976963363056481941560715954676764349967630337

/-- The concrete scalar field `pasta::Fp` used by all four samples. -/
abbrev Fp : Type := ZMod pallasP

/-! ## The direct range-check expression (`range_check` closure)

`src/range_check/example1.rs` lines 50–55 and, identically,
`src/range_check/example2.rs` lines 62–67 build the gate polynomial by a
fold: starting from `value`, for each `i` in `1..range` multiply by
`(Constant(i) - value)`. -/

section RangeCheckExpr

variable {F : Type} [CommRing F]

/-- Embeds the `range_check` closure of `src/range_check/example1.rs`
(lines 50–55): `(1..range).fold(value, |expr, i| expr * (Constant(i) - value))`.
The Rust iterator `1..range` visits `1, …, range-1`, which is
`List.range' 1 (range - 1)`. -/
def range_check (range : Nat) (value : F) : F :=
  (List.range' 1 (range - 1)).foldl (fun expr (i : Nat) => expr * ((i : F) - value)) value

/-- The product form the specification ascribes to the gate:
`value * (1 - value) * (2 - value) * … * (range-1 - value)`. -/
def rangeProduct (range : Nat) (value : F) : F :=
  value * ((List.range' 1 (range - 1)).map (fun (i : Nat) => (i : F) - value)).prod

end RangeCheckExpr

/-! ## The lookup-based range check (`src/range_check/example2.rs`)

`RangeCheckConfig::assign` (lines 86–118) first asserts
`range <= LOOKUP_RANGE`, then branches on `range < RANGE`: the first
branch enables the simple selector `q_range_check` in region
`"Assign value"`, the second enables the complex selector `q_lookup` in
region `"Assign value for lookup range check"`. -/

/-- The two region branches of `RangeCheckConfig::assign` in
`src/range_check/example2.rs`: `gateBranch` enables `q_range_check`
(the direct range-check gate), `lookupBranch` enables `q_lookup` (the
lookup argument). -/
inductive RC2Branch where
  | gateBranch
  | lookupBranch
deriving DecidableEq

/-- Embeds the control flow of `RangeCheckConfig::assign`
(`src/range_check/example2.rs` lines 86–118): `assert!(range <= LOOKUP_RANGE)`
aborts (modelled as `none`) before either region is entered; otherwise
exactly one of the two branches runs, chosen by `if range < RANGE`. -/
def rc2AssignBranch (L R range : Nat) : Option RC2Branch :=
  if range ≤ L then
    if range < R then some RC2Branch.gateBranch else some RC2Branch.lookupBranch
  else none

/-- Embeds the two `assign` calls made by `MyCircuit::synthesize`
(`src/range_check/example2.rs` lines 151–161): the small value is
assigned with `range = RANGE`, the large value with
`range = LOOKUP_RANGE`; the pair records which branch each call takes. -/
def rc2SynthesizeBranches (L R : Nat) : Option RC2Branch × Option RC2Branch :=
  (rc2AssignBranch L R R, rc2AssignBranch L R L)

/-- Modelled from the spec: the lookup table column loaded by
`RangeCheckTable::load` (`src/range_check/table.rs`, referenced by
`mod table;` but not present in the sources): a fixed column holding
the values `0 .. LOOKUP_RANGE - 1`. -/
def rc2TableColumn (L : Nat) : List Fp :=
  (List.range L).map (Nat.cast : Nat → Fp)

/-! ## The satisfaction checker ("mock prover")

The checker itself lives in the external `halo2_proofs` crate; the
definitions below are modelled from the specification (§4.6). -/

/-- Modelled from the spec: a `ConstraintNotSatisfied` violation record
(§4.6 step 1, §6): the gate's name, the region name and in-region offset
of the offending row, the absolute row, and the concrete cell values
involved. -/
structure CNSViolation (F : Type) where
  gate : String
  region : String
  offset : Nat
  row : Nat
  values : List F
deriving DecidableEq

/-- Modelled from the spec: the mock prover's gate check (§4.6 step 1),
absent from the sources (it lives in the external `halo2_proofs` crate):
for every row of the `n = 2^k` table rows, if the gate's governing
selector is true there, evaluate the gate polynomial; every row where
the result is not the additive identity yields a violation. -/
def gateViolations {F : Type} [Zero F] [DecidableEq F] (n : Nat) (g : String)
    (reg : Nat → String × Nat) (sel : Nat → Bool) (poly : Nat → F)
    (vals : Nat → List F) : List (CNSViolation F) :=
  (List.range n).filterMap fun r =>
    if sel r then
      if poly r = 0 then none
      else some ⟨g, (reg r).1, (reg r).2, r, vals r⟩
    else none

/-- Modelled from the spec: the mock prover's equality check (§4.6
step 3): every declared equality pair must relate cells holding the same
value; offending pairs are returned. -/
def permViolations {F : Type} [DecidableEq F] (pairs : List (F × F)) :
    List (F × F) :=
  pairs.filter fun p => decide (p.1 ≠ p.2)

/-! ## The two/three-column Fibonacci circuit (`src/example1.rs`)

`MyCircuit::synthesize` (lines 195–219) calls `assign_first_row` once and
`assign_row` seven times (`for _i in 3..10`); each call opens a one-row
region, so the `SimpleFloorPlanner` places them at absolute rows 0–7.
Each region enables the `add` selector at its offset 0. -/

section Fib1

variable {F : Type} [CommRing F]

/-- Embeds the advice values of row `n` of the table synthesized by
`src/example1.rs`: row 0 is assigned `(a, b, a + b)` by
`assign_first_row` (lines 91–122); row `n+1` is assigned by the `n`-th
`assign_row` call (lines 125–154), which copies the previous region's
`b` and `c` cells into columns `a` and `b` and assigns their sum to
column `c`. -/
def fib1Row (a b : F) : Nat → F × F × F
  | 0 => (a, b, a + b)
  | n + 1 =>
    match fib1Row a b n with
    | (_, pb, pc) => (pb, pc, pb + pc)

/-- The advice cell values of the synthesized table: columns 0, 1, 2 at
rows 0–7 hold `fib1Row`; all other cells are unassigned (modelled as 0 —
the `add` selector is off there, so the checker never evaluates them). -/
def fib1Cell (a b : F) (col row : Nat) : F :=
  if row < 8 then
    match col with
    | 0 => (fib1Row a b row).1
    | 1 => (fib1Row a b row).2.1
    | _ => (fib1Row a b row).2.2
  else 0

/-- The `add` selector column: each of the 8 one-row regions enables it
at its offset 0, i.e. at absolute rows 0–7. -/
def fib1Selector (row : Nat) : Bool := decide (row < 8)

/-- The region containing each absolute row: row 0 belongs to region
`"first_row"`, rows 1–7 to the `"next row"` regions, always at offset 0. -/
def fib1RegionOf (row : Nat) : String × Nat :=
  if row = 0 then ("first_row", 0) else ("next row", 0)

/-- The `add` gate polynomial of `FiboChip::configure`
(`src/example1.rs` lines 67–79): `a + b - c` over the three advice
columns at `Rotation::cur()`. -/
def fib1GateExpr (a b : F) (row : Nat) : F :=
  fib1Cell a b 0 row + fib1Cell a b 1 row - fib1Cell a b 2 row

/-- The sequence of distinct values the synthesis produces: `a`, `b`,
then the `c` column of rows 0–7. -/
def fib1ValueSeq (a b : F) : List F :=
  fib1Cell a b 0 0 :: fib1Cell a b 1 0 ::
    (List.range 8).map (fun r => fib1Cell a b 2 r)

/-- The equality pairs produced by synthesis, as value pairs: the two
`expose_public` calls for `a` and `b`, then per `assign_row` call `k`
(writing row `k+1`) the two `copy_advice` pairs, then the
`expose_public` call for the output.  The `prev_b` cell of call 0 is
`(col 1, row 0)` and of call `k ≥ 1` is `(col 2, row k-1)`; the `prev_c`
cell of call 0 is `(col 2, row 0)` and of call `k ≥ 1` is
`(col 2, row k)`. -/
def fib1EqPairs (a b : F) (inst : Nat → F) : List (F × F) :=
  [(fib1Cell a b 0 0, inst 0), (fib1Cell a b 1 0, inst 1)]
    ++ ((List.range 7).flatMap fun k =>
        [((if k = 0 then fib1Cell a b 1 0 else fib1Cell a b 2 (k - 1)),
            fib1Cell a b 0 (k + 1)),
         ((if k = 0 then fib1Cell a b 2 0 else fib1Cell a b 2 k),
            fib1Cell a b 1 (k + 1))])
    ++ [(fib1Cell a b 2 7, inst 2)]

/-- The gate check of the mock prover run at `k = 4` (16 table rows) on
the synthesized two/three-column Fibonacci table. -/
def fib1GateViolations [DecidableEq F] (a b : F) : List (CNSViolation F) :=
  gateViolations 16 "add" fib1RegionOf fib1Selector (fib1GateExpr a b)
    (fun r => [fib1Cell a b 0 r, fib1Cell a b 1 r, fib1Cell a b 2 r])

end Fib1

/-! ## The single-column Fibonacci circuit (`src/fibonacci/example2.rs`)

`MyCircuit::synthesize` (lines 184–195) calls `FiboChip::assign` with
`nrows = 10`; the single region sits at rows 0–9 of the table. -/

section Fib2

variable {F : Type} [CommRing F]

/-- Embeds the `(a_cell, b_cell)` loop state of `FiboChip::assign`
(`src/fibonacci/example2.rs` lines 100–144): initially the two instance
values copied into rows 0 and 1; each iteration assigns their sum and
shifts the pair. -/
def fib2Pair (i0 i1 : F) : Nat → F × F
  | 0 => (i0, i1)
  | n + 1 =>
    match fib2Pair i0 i1 n with
    | (pa, pb) => (pb, pa + pb)

/-- The advice value at row `n` of the single column: the first
component of the `n`-th loop state. -/
def fib2A (i0 i1 : F) (n : Nat) : F := (fib2Pair i0 i1 n).1

/-- The advice cell values of the table synthesized with `nrows = 10`:
rows 0–9 hold `fib2A`, the rest is unassigned (modelled as 0; the
selector is off at and after row 8, so the gate never reads them). -/
def fib2Cell (i0 i1 : F) (row : Nat) : F :=
  if row < 10 then fib2A i0 i1 row else 0

/-- Embeds the selector enabling of `FiboChip::assign`
(`src/fibonacci/example2.rs` lines 100–144): the selector is enabled at
offset 0, then for each `row` in `2..nrows` exactly when
`row < nrows - 2`. -/
def fib2EnabledRows (nrows : Nat) : List Nat :=
  0 :: (List.range' 2 (nrows - 2)).filter (fun row => decide (row < nrows - 2))

/-- The `add` selector column of the synthesized table (`nrows = 10`). -/
def fib2Selector (row : Nat) : Bool := decide (row ∈ fib2EnabledRows 10)

/-- The single region `"entire fibonacci table"` occupies rows 0–9;
in-region offsets coincide with absolute rows. -/
def fib2RegionOf (row : Nat) : String × Nat := ("entire fibonacci table", row)

/-- The `add` gate polynomial of `FiboChip::configure`
(`src/fibonacci/example2.rs` lines 71–85): the single advice column
queried at `Rotation::cur()`, `Rotation::next()` and `Rotation(2)`:
`a(row) + a(row+1) - a(row+2)`. -/
def fib2GateExpr (i0 i1 : F) (row : Nat) : F :=
  fib2Cell i0 i1 row + fib2Cell i0 i1 (row + 1) - fib2Cell i0 i1 (row + 2)

/-- The sequence of values the synthesis assigns to rows 0–9. -/
def fib2ValueSeq (i0 i1 : F) : List F :=
  (List.range 10).map (fib2A i0 i1)

/-- The equality pairs produced by synthesis, as value pairs: the two
`assign_advice_from_instance` calls bind rows 0 and 1 to instance rows
0 and 1, and `expose_public` binds row 9 to instance row 2. -/
def fib2EqPairs (i0 i1 : F) (inst : Nat → F) : List (F × F) :=
  [(fib2Cell i0 i1 0, inst 0), (fib2Cell i0 i1 1, inst 1),
   (fib2Cell i0 i1 9, inst 2)]

/-- The gate check of the mock prover run at `k = 4` (16 table rows) on
the synthesized single-column Fibonacci table. -/
def fib2GateViolations [DecidableEq F] (i0 i1 : F) : List (CNSViolation F) :=
  gateViolations 16 "add" fib2RegionOf fib2Selector (fib2GateExpr i0 i1)
    (fun r => [fib2Cell i0 i1 r, fib2Cell i0 i1 (r + 1), fib2Cell i0 i1 (r + 2)])

end Fib2

/-- The public-input vector `[1, 1, 55]` passed to `MockProver::run` by
both Fibonacci `main` functions (`Fp::from(1)`, `Fp::from(1)`,
`Fp::from(55)`); instance rows beyond it are zero. -/
def fibInstance : Nat → Fp := fun n => List.getD [1, 1, 55] n 0

/-! ## The direct range-check circuit (`src/range_check/example1.rs`)

The test `test_range_check_1` (lines 121–154) runs the circuit at
`k = 4` with `RANGE = 8`; `RangeCheckConfig::assign` opens the single
region `"Assign value"`, enables `q_range_check` at offset 0 and assigns
the witnessed value there; the region sits at absolute row 0. -/

/-- The advice column of the direct range-check circuit: the witnessed
value at row 0, every other cell unassigned (modelled as 0; the selector
is off there). -/
def rc1Cell (v : Fp) (row : Nat) : Fp := if row = 0 then v else 0

/-- The `q_range_check` selector: enabled only at offset 0 of the single
region, i.e. absolute row 0. -/
def rc1Selector (row : Nat) : Bool := decide (row = 0)

/-- Every row of the circuit belongs to the single region
`"Assign value"` at offset 0. -/
def rc1RegionOf (_row : Nat) : String × Nat := ("Assign value", 0)

/-- The `"Range check"` gate polynomial with `RANGE = 8`, evaluated at a
row: the `range_check` fold applied to the advice cell at
`Rotation::cur()`. -/
def rc1Poly (v : Fp) (row : Nat) : Fp := range_check 8 (rc1Cell v row)

/-- The gate check of the mock prover run at `k = 4` (16 table rows) on
the direct range-check circuit witnessing `v`. -/
def rc1GateViolations (v : Fp) : List (CNSViolation Fp) :=
  gateViolations 16 "Range check" rc1RegionOf rc1Selector (rc1Poly v)
    (fun row => [rc1Cell v row])

/-- The mock prover's hexadecimal rendering of a reported cell value, as
matched by the unit test's expected string `"0x8"`. -/
def hexRepr (x : Fp) : String := "0x" ++ String.mk (Nat.toDigits 16 x.val)

/-! ## Synthesis failure on missing witnesses (`src/example1.rs`) -/

/-- The `halo2_proofs` error value the samples construct:
`Error::Synthesis`. -/
inductive H2Error where
  | synthesis
deriving DecidableEq

/-- Embeds Rust `Option::ok_or(Error::Synthesis)` as called at
`src/example1.rs` lines 101, 108 and 117. -/
def okOrSynthesis {F : Type} (v : Option F) : Except H2Error F :=
  match v with
  | some x => Except.ok x
  | none => Except.error H2Error.synthesis

/-- Embeds the value flow of `FiboChip::assign_first_row`
(`src/example1.rs` lines 91–122): the three `assign_advice` calls demand
concrete values via `ok_or(Error::Synthesis)` and the `?` operator
propagates the first failure out of the region; the `c` value is
`a.and_then(|a| b.map(|b| a + b))`. -/
def assign_first_row {F : Type} [Add F] (a b : Option F) :
    Except H2Error (F × F × F) := do
  let av ← okOrSynthesis a
  let bv ← okOrSynthesis b
  let cv ← okOrSynthesis (a.bind fun x => b.map fun y => x + y)
  pure (av, bv, cv)

/-- Embeds the value flow of `MyCircuit::synthesize`
(`src/example1.rs` lines 195–219): `assign_first_row` runs first and its
failure propagates through `?` to the caller; once row 0 carries
concrete values, the seven `assign_row` calls cannot fail, and the 8
synthesized rows are produced. -/
def fib1Synthesize {F : Type} [CommRing F] (a b : Option F) :
    Except H2Error (List (F × F × F)) := do
  let r0 ← assign_first_row a b
  pure ((List.range 8).map (fun n => fib1Row r0.1 r0.2.1 n))

/-! ## Discarded selector-enable results

In `src/range_check/example1.rs` (lines 63–78) and in both region
closures of `src/range_check/example2.rs` (lines 94–104 and 106–115) the
statement `self.q_range_check.enable(&mut region, offset);` (resp.
`self.q_lookup.enable(...)`) ends in a semicolon: its `Result` is
dropped, while `region.assign_advice(...)?` propagates.  The region
operations themselves live in the external `halo2_proofs` crate, so the
closures are embedded as functions of those operations, each of type
`σ → Except E Unit × σ` over an abstract region state `σ`. -/

/-- A region operation as handed to a region closure: it returns a
`Result` and the updated region state. -/
def RegionOp (σ E : Type) : Type := σ → Except E Unit × σ

/-- Embeds the region closure of `RangeCheckConfig::assign` in
`src/range_check/example1.rs` lines 68–77: `enable`'s result is
discarded (semicolon, no `?`), `assignAdvice`'s result is propagated by
`?`, then `Ok(())`. -/
def rc1AssignBody {σ E : Type} (enable assignAdvice : RegionOp σ E)
    (st : σ) : Except E Unit × σ :=
  let st1 := (enable st).2
  match assignAdvice st1 with
  | (Except.ok _, st2) => (Except.ok (), st2)
  | (Except.error e, st2) => (Except.error e, st2)

/-- Embeds the first region closure (`q_range_check` branch) of
`RangeCheckConfig::assign` in `src/range_check/example2.rs` lines
95–104: the same discarded-enable shape. -/
def rc2GateBody {σ E : Type} (enable assignAdvice : RegionOp σ E)
    (st : σ) : Except E Unit × σ :=
  let st1 := (enable st).2
  match assignAdvice st1 with
  | (Except.ok _, st2) => (Except.ok (), st2)
  | (Except.error e, st2) => (Except.error e, st2)

/-- Embeds the second region closure (`q_lookup` branch) of
`RangeCheckConfig::assign` in `src/range_check/example2.rs` lines
106–115: the same discarded-enable shape. -/
def rc2LookupBody {σ E : Type} (enable assignAdvice : RegionOp σ E)
    (st : σ) : Except E Unit × σ :=
  let st1 := (enable st).2
  match assignAdvice st1 with
  | (Except.ok _, st2) => (Except.ok (), st2)
  | (Except.error e, st2) => (Except.error e, st2)

/-! ## Mutating one cell of the satisfied Fibonacci table -/

section Fib1Mut

variable {F : Type} [CommRing F]

/-- The two/three-column Fibonacci table with the `c` cell (column 2) of
row `r` overwritten by `v`; every other cell is unchanged. -/
def fib1CellMut (a b v : F) (r col row : Nat) : F :=
  if col = 2 ∧ row = r then v else fib1Cell a b col row

/-- The `add` gate polynomial evaluated over the mutated table. -/
def fib1GateExprMut (a b v : F) (r row : Nat) : F :=
  fib1CellMut a b v r 0 row + fib1CellMut a b v r 1 row -
    fib1CellMut a b v r 2 row

/-- The gate check of the mock prover re-run on the mutated table. -/
def fib1GateViolationsMut [DecidableEq F] (a b v : F) (r : Nat) :
    List (CNSViolation F) :=
  gateViolations 16 "add" fib1RegionOf fib1Selector (fib1GateExprMut a b v r)
    (fun row => [fib1CellMut a b v r 0 row, fib1CellMut a b v r 1 row,
      fib1CellMut a b v r 2 row])

end Fib1Mut

/-! ## Helper lemmas -/

theorem foldl_mul_eq_mul_prod {F : Type} [CommRing F] (f : Nat → F) (l : List Nat) (a : F) :
    l.foldl (fun e i => e * f i) a = a * (l.map f).prod := by
  induction l generalizing a with
  | nil => simp
  | cons x xs ih => simp [ih, mul_assoc]

theorem range_check_eq_rangeProduct {F : Type} [CommRing F] (range : Nat) (v : F) :
    range_check range v = rangeProduct range v := by
  unfold range_check rangeProduct
  exact foldl_mul_eq_mul_prod (fun (i : Nat) => (i : F) - v) (List.range' 1 (range - 1)) v

theorem rangeProduct_eq_zero_iff {F : Type} [Field F] (range : Nat)
    (hr : 0 < range) (v : F) :
    rangeProduct range v = 0 ↔ ∃ i : Nat, i < range ∧ v = (i : F) := by
  unfold rangeProduct
  rw [mul_eq_zero, List.prod_eq_zero_iff, List.mem_map]
  constructor
  · rintro (h0 | ⟨x, hx, hfx⟩)
    · exact ⟨0, hr, by simpa using h0⟩
    · have hx' := List.mem_range'_1.mp hx
      exact ⟨x, by omega, (sub_eq_zero.mp hfx).symm⟩
  · rintro ⟨i, hi, hv⟩
    rcases Nat.eq_zero_or_pos i with h0 | hpos
    · left
      simp [hv, h0]
    · right
      exact ⟨i, List.mem_range'_1.mpr (by omega), by rw [hv, sub_self]⟩

theorem gateViolations_succ {F : Type} [Zero F] [DecidableEq F] (n : Nat) (g : String)
    (reg : Nat → String × Nat) (sel : Nat → Bool) (poly : Nat → F)
    (vals : Nat → List F) :
    gateViolations (n + 1) g reg sel poly vals =
      gateViolations n g reg sel poly vals ++
        (if sel n then
          (if poly n = 0 then []
           else [⟨g, (reg n).1, (reg n).2, n, vals n⟩])
         else []) := by
  unfold gateViolations
  rw [List.range_succ, List.filterMap_append]
  congr 1
  cases hs : sel n
  · simp [hs]
  · by_cases hp : poly n = 0 <;> simp [hs, hp]

theorem gateViolations_eq_nil {F : Type} [Zero F] [DecidableEq F] {n : Nat} {g : String}
    {reg : Nat → String × Nat} {sel : Nat → Bool} {poly : Nat → F}
    {vals : Nat → List F}
    (h : ∀ k, k < n → sel k = true → poly k = 0) :
    gateViolations n g reg sel poly vals = [] := by
  induction n with
  | zero => rfl
  | succ m ih =>
    rw [gateViolations_succ, ih (fun k hk => h k (Nat.lt_succ_of_lt hk))]
    cases hs : sel m
    · simp
    · simp [h m (Nat.lt_succ_self m) hs]

theorem gateViolations_single {F : Type} [Zero F] [DecidableEq F] {n : Nat} {g : String}
    {reg : Nat → String × Nat} {sel : Nat → Bool} {poly : Nat → F}
    {vals : Nat → List F} {r : Nat}
    (hr : r < n) (hsel : sel r = true) (hpoly : poly r ≠ 0)
    (hzero : ∀ k, k < n → k ≠ r → sel k = true → poly k = 0) :
    gateViolations n g reg sel poly vals =
      [⟨g, (reg r).1, (reg r).2, r, vals r⟩] := by
  induction n with
  | zero => omega
  | succ m ih =>
    rw [gateViolations_succ]
    rcases Nat.lt_succ_iff_lt_or_eq.mp hr with h | h
    · rw [ih h (fun k hk => hzero k (Nat.lt_succ_of_lt hk))]
      cases hs : sel m
      · simp
      · simp [hzero m (Nat.lt_succ_self m) (by omega) hs]
    · subst h
      rw [gateViolations_eq_nil
        (fun k hk hs => hzero k (Nat.lt_succ_of_lt hk) (by omega) hs)]
      simp [hsel, hpoly]

theorem fib1Row_c {F : Type} [CommRing F] (a b : F) (n : Nat) :
    (fib1Row a b n).2.2 = (fib1Row a b n).1 + (fib1Row a b n).2.1 := by
  cases n <;> simp [fib1Row]

theorem fib1GateExpr_eq_zero {F : Type} [CommRing F] (a b : F) (r : Nat)
    (hr : r < 8) : fib1GateExpr a b r = 0 := by
  unfold fib1GateExpr fib1Cell
  rw [if_pos hr, if_pos hr, if_pos hr]
  rw [fib1Row_c]
  ring

theorem fib2A_rec {F : Type} [CommRing F] (i0 i1 : F) (n : Nat) :
    fib2A i0 i1 (n + 2) = fib2A i0 i1 n + fib2A i0 i1 (n + 1) := by
  simp [fib2A, fib2Pair]

theorem fib2GateExpr_eq_zero {F : Type} [CommRing F] (i0 i1 : F) (r : Nat)
    (hr : r + 2 < 10) : fib2GateExpr i0 i1 r = 0 := by
  unfold fib2GateExpr fib2Cell
  rw [if_pos (by omega), if_pos (by omega), if_pos (by omega)]
  rw [fib2A_rec]
  ring

/-! ## The claims -/

/-- C5: the expression built by the `range_check` closure — a fold
starting from `value`, multiplying by `(i - value)` for `i = 1 .. range-1`
— equals the product `value * (1 - value) * (2 - value) * … *
(range-1 - value)`, and over a field this product is zero exactly when
`value` is the embedding of one of `0, 1, …, range-1`. -/
theorem range_check_fold_eq_product_and_zero_iff {F : Type} [Field F]
    (range : Nat) (hr : 0 < range) (v : F) :
    range_check range v = rangeProduct range v ∧
    (rangeProduct range v = 0 ↔ ∃ i : Nat, i < range ∧ v = (i : F)) :=
  ⟨range_check_eq_rangeProduct range v, rangeProduct_eq_zero_iff range hr v⟩

theorem range_check_fold_eq_product_and_zero_iff_witness :
    0 < 8 ∧
      (range_check 8 (3 : ℚ) = rangeProduct 8 (3 : ℚ) ∧
        (rangeProduct 8 (3 : ℚ) = 0 ↔ ∃ i : Nat, i < 8 ∧ (3 : ℚ) = (i : ℚ))) :=
  ⟨by decide, range_check_fold_eq_product_and_zero_iff 8 (by decide) 3⟩

/-- C10: calling `RangeCheckConfig::assign` (lookup sample) with
`range > LOOKUP_RANGE` aborts at the `assert!(range <= LOOKUP_RANGE)`
before any selector is enabled or cell assigned (result `none`); with
`range ≤ LOOKUP_RANGE` the assertion passes and exactly one of the two
region branches runs. -/
theorem rc2_assign_assert_guard :
    (∀ L R range, L < range → rc2AssignBranch L R range = none) ∧
    (∀ L R range, range ≤ L →
      (rc2AssignBranch L R range = some RC2Branch.gateBranch ∨
        rc2AssignBranch L R range = some RC2Branch.lookupBranch) ∧
      ¬(rc2AssignBranch L R range = some RC2Branch.gateBranch ∧
        rc2AssignBranch L R range = some RC2Branch.lookupBranch)) := by
  constructor
  · intro L R range h
    unfold rc2AssignBranch
    rw [if_neg (by omega)]
  · intro L R range h
    unfold rc2AssignBranch
    rw [if_pos h]
    constructor
    · by_cases hc : range < R
      · exact Or.inl (by rw [if_pos hc])
      · exact Or.inr (by rw [if_neg hc])
    · rintro ⟨h1, h2⟩
      rw [h1] at h2
      exact RC2Branch.noConfusion (Option.some.inj h2)

theorem rc2_assign_assert_guard_witness :
    (256 < 300 ∧ rc2AssignBranch 256 8 300 = none) ∧
    (8 ≤ 256 ∧
      (rc2AssignBranch 256 8 8 = some RC2Branch.gateBranch ∨
        rc2AssignBranch 256 8 8 = some RC2Branch.lookupBranch)) :=
  ⟨⟨by decide, rc2_assign_assert_guard.1 256 8 300 (by decide)⟩,
   ⟨by decide, (rc2_assign_assert_guard.2 256 8 8 (by decide)).1⟩⟩

/-- C2 (code bug): with `RANGE = 8` and `LOOKUP_RANGE = 256`, the
small-value call path of `synthesize` passes `range = RANGE`, so the
branch condition `range < RANGE` is `8 < 8 = false` and the call takes
the lookup branch: `q_lookup`, not `q_range_check`, is enabled on the
small value's row, contradicting the claim (and the file header's
documentation).  The large-value call also takes the lookup branch, and
the loaded table indeed does not contain the embedding of 256. -/
theorem rc2_small_call_takes_lookup_branch :
    (rc2SynthesizeBranches 256 8).1 = some RC2Branch.lookupBranch ∧
    (rc2SynthesizeBranches 256 8).1 ≠ some RC2Branch.gateBranch ∧
    (rc2SynthesizeBranches 256 8).2 = some RC2Branch.lookupBranch ∧
    (256 : Fp) ∉ rc2TableColumn 256 := by
  refine ⟨by decide, by decide, by decide, by decide⟩

/-- C9: in the direct range-check sample's `assign` and in both branches
of the lookup sample's `assign`, the result of enabling the selector is
discarded: even when the enable operation fails, the region body still
runs the advice assignment on the post-enable state and returns that
assignment's result alone, so the enable failure is never surfaced. -/
theorem enable_result_discarded {σ E : Type}
    (enable assignAdvice : RegionOp σ E) (st : σ) (e : E)
    (h : (enable st).1 = Except.error e) :
    (rc1AssignBody enable assignAdvice st).1 = (assignAdvice (enable st).2).1 ∧
    (rc2GateBody enable assignAdvice st).1 = (assignAdvice (enable st).2).1 ∧
    (rc2LookupBody enable assignAdvice st).1 = (assignAdvice (enable st).2).1 := by
  refine ⟨?_, ?_, ?_⟩ <;>
    · first
        | unfold rc1AssignBody
        | unfold rc2GateBody
        | unfold rc2LookupBody
      rcases hx : assignAdvice (enable st).2 with ⟨res, st2⟩
      cases res with
      | ok u => cases u; simp [hx]
      | error e2 => simp [hx]

theorem enable_result_discarded_witness :
    (rc1AssignBody (fun s => (Except.error 7, s + 1))
        (fun s => (Except.ok (), s * 2)) (0 : Nat)).1 =
      ((fun (s : Nat) => ((Except.ok () : Except Nat Unit), s * 2))
        ((fun (s : Nat) => ((Except.error 7 : Except Nat Unit), s + 1)) 0).2).1 :=
  (enable_result_discarded (fun s => (Except.error 7, s + 1))
    (fun s => (Except.ok (), s * 2)) 0 7 rfl).1

/-- C8: in the two-column Fibonacci circuit, if either witness `a` or
`b` is `None`, synthesis fails: `assign_first_row` returns
`Error::Synthesis` at the point the concrete value is required, the
error propagates out of `synthesize`, and no table is produced. -/
theorem fib1_missing_witness_aborts {F : Type} [CommRing F]
    (a b : Option F) (h : a = none ∨ b = none) :
    assign_first_row a b = Except.error H2Error.synthesis ∧
    fib1Synthesize a b = Except.error H2Error.synthesis := by
  rcases h with h | h
  · subst h
    exact ⟨rfl, rfl⟩
  · subst h
    cases a with
    | none => exact ⟨rfl, rfl⟩
    | some x => exact ⟨rfl, rfl⟩

theorem fib1_missing_witness_aborts_witness :
    assign_first_row (some (1 : ℤ)) none = Except.error H2Error.synthesis ∧
    fib1Synthesize (some (1 : ℤ)) none = Except.error H2Error.synthesis :=
  fib1_missing_witness_aborts (some 1) none (Or.inr rfl)

/-- C7: in the single-column variant, `assign` with `nrows = 10` enables
the `add` selector only at row 0 and rows 2–7 (never at the final two
rows 8 and 9), and at every enabled row the three cells queried at
rotations 0, +1, +2 lie inside the assigned span of 10 rows. -/
theorem fib2_selector_rows_in_bounds :
    fib2EnabledRows 10 = [0, 2, 3, 4, 5, 6, 7] ∧
    (∀ r ∈ fib2EnabledRows 10, r + 2 < 10) ∧
    8 ∉ fib2EnabledRows 10 ∧ 9 ∉ fib2EnabledRows 10 := by
  refine ⟨by decide, ?_, by decide, by decide⟩
  intro r hr
  have h : fib2EnabledRows 10 = [0, 2, 3, 4, 5, 6, 7] := by decide
  rw [h] at hr
  fin_cases hr <;> decide

theorem fib2_selector_rows_in_bounds_witness : (7 : Nat) + 2 < 10 :=
  fib2_selector_rows_in_bounds.2.1 7 (by decide)

/-- C3: for every assigned table produced by the Fibonacci circuits'
synthesis (any seeds, any commutative ring of values) and every row at
which the `add` selector is enabled, the gate expression evaluates to
the additive identity: `a + b - c = 0` over the three advice cells of
that row in the two/three-column variant, and
`a(row) + a(row+1) - a(row+2) = 0` in the single-column variant. -/
theorem fib_add_gate_vanishes {F : Type} [CommRing F] :
    (∀ (a b : F) (r : Nat), fib1Selector r = true → fib1GateExpr a b r = 0) ∧
    (∀ (i0 i1 : F) (r : Nat), fib2Selector r = true → fib2GateExpr i0 i1 r = 0) := by
  constructor
  · intro a b r hr
    exact fib1GateExpr_eq_zero a b r (by simpa [fib1Selector] using hr)
  · intro i0 i1 r hr
    have hmem : r ∈ fib2EnabledRows 10 := by simpa [fib2Selector] using hr
    have hlist : fib2EnabledRows 10 = [0, 2, 3, 4, 5, 6, 7] := by decide
    rw [hlist] at hmem
    have hb : r + 2 < 10 := by fin_cases hmem <;> decide
    exact fib2GateExpr_eq_zero i0 i1 r hb

theorem fib_add_gate_vanishes_witness :
    (fib1Selector 3 = true ∧ fib1GateExpr (1 : ℤ) 1 3 = 0) ∧
    (fib2Selector 4 = true ∧ fib2GateExpr (1 : ℤ) 1 4 = 0) :=
  ⟨⟨by decide, fib_add_gate_vanishes.1 1 1 3 (by decide)⟩,
   ⟨by decide, fib_add_gate_vanishes.2 1 1 4 (by decide)⟩⟩

/-- C1: for both Fibonacci sample circuits with seed witnesses
`a = 1, b = 1`, synthesis produces the value sequence
1, 1, 2, 3, 5, 8, 13, 21, 34, 55, and the mock prover run at `k = 4`
(16 rows) with public inputs `[1, 1, 55]` reports satisfied: the gate
check and the equality check both return empty violation lists for both
variants. -/
theorem fib_circuits_one_one_satisfied :
    fib1ValueSeq (1 : Fp) 1 = [1, 1, 2, 3, 5, 8, 13, 21, 34, 55] ∧
    fib1GateViolations (1 : Fp) 1 = [] ∧
    permViolations (fib1EqPairs (1 : Fp) 1 fibInstance) = [] ∧
    fib2ValueSeq (1 : Fp) 1 = [1, 1, 2, 3, 5, 8, 13, 21, 34, 55] ∧
    fib2GateViolations (1 : Fp) 1 = [] ∧
    permViolations (fib2EqPairs (1 : Fp) 1 fibInstance) = [] := by
  refine ⟨?_, ?_, ?_, ?_, ?_, ?_⟩ <;> decide

/-- C4: in the direct range-check circuit with `RANGE = 8`, assigning
any `v` in `[0, 8)` with the selector enabled satisfies the checker;
assigning `v = 8` yields exactly one `ConstraintNotSatisfied` naming the
`"Range check"` gate, located in the `"Assign value"` region at offset
0, with the offending cell value reported exactly (rendered `"0x8"`). -/
theorem rc1_range_check_results :
    (∀ n : Nat, n < 8 → rc1GateViolations ((n : Nat) : Fp) = []) ∧
    rc1GateViolations (8 : Fp) =
      [⟨"Range check", "Assign value", 0, 0, [(8 : Fp)]⟩] ∧
    hexRepr 8 = "0x8" := by
  refine ⟨?_, by decide, by decide⟩
  intro n hn
  interval_cases n <;> decide

theorem rc1_range_check_results_witness :
    rc1GateViolations ((5 : Nat) : Fp) = [] :=
  rc1_range_check_results.1 5 (by decide)

/-- C6: starting from the satisfied two-column Fibonacci table with
seeds 1, 1, overwriting the `c` cell of any row `r` with any incorrect
value and re-running the gate check produces exactly one
`ConstraintNotSatisfied` violation, naming the `add` gate, located at
row `r`, with the offending cell values; no other gate violation is
reported. -/
theorem fib1_mutation_exactly_one_violation (r : Nat) (v : Fp)
    (hr : r < 8) (hv : v ≠ fib1Cell 1 1 2 r) :
    fib1GateViolationsMut 1 1 v r =
      [⟨"add", (fib1RegionOf r).1, (fib1RegionOf r).2, r,
        [fib1Cell 1 1 0 r, fib1Cell 1 1 1 r, v]⟩] := by
  have h0 : fib1CellMut (1 : Fp) 1 v r 0 r = fib1Cell 1 1 0 r := by
    unfold fib1CellMut
    rw [if_neg (by simp)]
  have h1 : fib1CellMut (1 : Fp) 1 v r 1 r = fib1Cell 1 1 1 r := by
    unfold fib1CellMut
    rw [if_neg (by simp)]
  have h2 : fib1CellMut (1 : Fp) 1 v r 2 r = v := by
    unfold fib1CellMut
    rw [if_pos ⟨rfl, rfl⟩]
  have hr16 : r < 16 := by omega
  have hsel : fib1Selector r = true := decide_eq_true hr
  have hpoly : fib1GateExprMut (1 : Fp) 1 v r r ≠ 0 := by
    unfold fib1GateExprMut
    rw [h0, h1, h2]
    have hc : fib1Cell (1 : Fp) 1 0 r + fib1Cell 1 1 1 r = fib1Cell 1 1 2 r := by
      unfold fib1Cell
      rw [if_pos hr, if_pos hr, if_pos hr]
      exact (fib1Row_c 1 1 r).symm
    rw [hc]
    exact sub_ne_zero.mpr (Ne.symm hv)
  have hzero : ∀ k, k < 16 → k ≠ r → fib1Selector k = true →
      fib1GateExprMut (1 : Fp) 1 v r k = 0 := by
    intro k _hk hkr hsk
    have hk8 : k < 8 := of_decide_eq_true hsk
    have e0 : fib1CellMut (1 : Fp) 1 v r 0 k = fib1Cell 1 1 0 k := by
      unfold fib1CellMut
      rw [if_neg (by simp)]
    have e1 : fib1CellMut (1 : Fp) 1 v r 1 k = fib1Cell 1 1 1 k := by
      unfold fib1CellMut
      rw [if_neg (by simp)]
    have e2 : fib1CellMut (1 : Fp) 1 v r 2 k = fib1Cell 1 1 2 k := by
      unfold fib1CellMut
      rw [if_neg (by simp [hkr])]
    unfold fib1GateExprMut
    rw [e0, e1, e2]
    have := fib1GateExpr_eq_zero (1 : Fp) 1 k hk8
    simpa [fib1GateExpr] using this
  unfold fib1GateViolationsMut
  rw [gateViolations_single hr16 hsel hpoly hzero, h0, h1, h2]

theorem fib1_mutation_exactly_one_violation_witness :
    fib1GateViolationsMut (1 : Fp) 1 99 4 =
      [⟨"add", "next row", 0, 4, [(5 : Fp), 8, 99]⟩] := by
  rw [fib1_mutation_exactly_one_violation 4 99 (by decide) (by decide)]
  decide

end Halo2Fib
